import Mathlib

/-!
Verification of the adaptive-resolution core of the SPHinXsys-based
icebreaking repository, shallowly embedded from
`src/SPHINXsys/src/shared/adaptations/adaptation.cpp`.

Conventions of the embedding:
* C++ `Real` (double) is modelled by exact arithmetic: `ℚ` where the code
  only uses field operations and integer powers, `ℝ` where it takes real
  roots and logarithms (`pow(x, 1.0/Dimensions)`, `log2`, `log10`).
* The kernel object (class `Kernel`, built in `all_kernels.h`, a header that
  is not part of the sources here) is abstracted as a 1-D profile with a
  support size, exactly the two entry points `adaptation.cpp` uses
  (`KernelSize()`, `W_1D`).
* Fields of the C++ classes that the adaptation logic never reads
  (the kernel pointer, `sigma0_ref_`, the body name) are omitted from the
  state records; every field that `adaptation.cpp` reads or writes is kept.
-/

namespace IceSPH

/-- Modelled from the spec: the ambient numerical tolerance `Eps`
("a small numerical margin preventing boundary ties"); its defining header
is not among the sources, so it is fixed here as a concrete small positive
rational of the magnitude of the double-precision machine epsilon. -/
def Eps : ℚ := 1 / 10 ^ 16

/-- `powerN(a, n)` of the source: integer power. -/
def powerN (a : ℚ) (n : ℕ) : ℚ := a ^ n

/-- State of class `SPHAdaptation` (adaptation.cpp lines 14-20):
the fields written by its constructor and by `resetAdaptationRatios`. -/
structure SPHAdaptation where
  h_spacing_ratio : ℚ
  system_refinement_ratio : ℚ
  local_refinement_level : ℕ
  spacing_ref : ℚ
  h_ref : ℚ
  spacing_min : ℚ
  h_ratio_max : ℚ
deriving DecidableEq, Repr

/-- `SPHAdaptation::MostRefinedSpacing` (lines 33-36):
`coarse_particle_spacing / powerN(2.0, refinement_level)`. -/
def SPHAdaptation.MostRefinedSpacing (coarse_particle_spacing : ℚ)
    (refinement_level : ℕ) : ℚ :=
  coarse_particle_spacing / powerN 2 refinement_level

/-- The `SPHAdaptation` constructor (lines 14-20): `local_refinement_level_ = 0`,
`spacing_ref_ = resolution_ref / system_refinement_ratio_`,
`h_ref_ = h_spacing_ratio_ * spacing_ref_`,
`spacing_min_ = MostRefinedSpacing(spacing_ref_, 0)`, `h_ratio_max_ = 2^0`. -/
def SPHAdaptation.construct (resolution_ref h_spacing_ratio
    system_refinement_ratio : ℚ) : SPHAdaptation :=
  let spacing_ref := resolution_ref / system_refinement_ratio
  { h_spacing_ratio := h_spacing_ratio
    system_refinement_ratio := system_refinement_ratio
    local_refinement_level := 0
    spacing_ref := spacing_ref
    h_ref := h_spacing_ratio * spacing_ref
    spacing_min := SPHAdaptation.MostRefinedSpacing spacing_ref 0
    h_ratio_max := powerN 2 0 }

/-- `SPHAdaptation::resetAdaptationRatios` (lines 79-89):
rescales `spacing_ref_` by `system_refinement_ratio_ / new_system_refinement_ratio`,
recomputes `h_ref_`, `spacing_min_`, and sets
`h_ratio_max_ = h_ref_ * spacing_ref_ / spacing_min_` (note: not `2^level`). -/
def SPHAdaptation.resetAdaptationRatios (st : SPHAdaptation)
    (h_spacing_ratio new_system_refinement_ratio : ℚ) : SPHAdaptation :=
  let spacing_ref := st.spacing_ref * st.system_refinement_ratio /
    new_system_refinement_ratio
  let h_ref := h_spacing_ratio * spacing_ref
  let spacing_min := SPHAdaptation.MostRefinedSpacing spacing_ref
    st.local_refinement_level
  { h_spacing_ratio := h_spacing_ratio
    system_refinement_ratio := new_system_refinement_ratio
    local_refinement_level := st.local_refinement_level
    spacing_ref := spacing_ref
    h_ref := h_ref
    spacing_min := spacing_min
    h_ratio_max := h_ref * spacing_ref / spacing_min }

/-- State of class `ParticleWithLocalRefinement` (lines 108-119):
the base-class state plus the two blending bounds. -/
structure ParticleWithLocalRefinement extends SPHAdaptation where
  finest_spacing_bound : ℚ
  coarsest_spacing_bound : ℚ
deriving DecidableEq, Repr

/-- The `ParticleWithLocalRefinement` constructor (lines 108-119): runs the
base constructor, then sets the refinement level, recomputes
`spacing_min_ = MostRefinedSpacing(spacing_ref_, level)`,
`h_ratio_max_ = 2^level`, and the two bounds `spacing_min_ + Eps`,
`spacing_ref_ - Eps`. -/
def ParticleWithLocalRefinement.construct (resolution_ref h_spacing_ratio
    system_refinement_ratio : ℚ) (local_refinement_level : ℕ) :
    ParticleWithLocalRefinement :=
  let base := SPHAdaptation.construct resolution_ref h_spacing_ratio
    system_refinement_ratio
  let spacing_min := SPHAdaptation.MostRefinedSpacing base.spacing_ref
    local_refinement_level
  { h_spacing_ratio := base.h_spacing_ratio
    system_refinement_ratio := base.system_refinement_ratio
    local_refinement_level := local_refinement_level
    spacing_ref := base.spacing_ref
    h_ref := base.h_ref
    spacing_min := spacing_min
    h_ratio_max := powerN 2 local_refinement_level
    finest_spacing_bound := spacing_min + Eps
    coarsest_spacing_bound := base.spacing_ref - Eps }

/-- `ParticleWithLocalRefinement` does not override `resetAdaptationRatios`:
the base-class reset runs and the two bounds are left untouched. -/
def ParticleWithLocalRefinement.resetAdaptationRatios
    (st : ParticleWithLocalRefinement)
    (h_spacing_ratio new_system_refinement_ratio : ℚ) :
    ParticleWithLocalRefinement :=
  { toSPHAdaptation := st.toSPHAdaptation.resetAdaptationRatios
      h_spacing_ratio new_system_refinement_ratio
    finest_spacing_bound := st.finest_spacing_bound
    coarsest_spacing_bound := st.coarsest_spacing_bound }

/-- `ParticleWithLocalRefinement::getCellLinkedListTotalLevel` (lines 121-124):
`size_t(local_refinement_level_)`. -/
def ParticleWithLocalRefinement.getCellLinkedListTotalLevel
    (st : ParticleWithLocalRefinement) : ℕ :=
  st.local_refinement_level

/-- `ParticleWithLocalRefinement::getLevelSetTotalLevel` (lines 126-129):
`getCellLinkedListTotalLevel() + 1`. -/
def ParticleWithLocalRefinement.getLevelSetTotalLevel
    (st : ParticleWithLocalRefinement) : ℕ :=
  st.getCellLinkedListTotalLevel + 1

/-- Modelled from the spec: the kernel interface used by
`ParticleRefinementByShape::smoothedSpacing` — `KernelSize()` (the support
size of the dimensionless profile) and the 1-D radial profile `W_1D`.  The
kernel classes live in `all_kernels.h`, which is not among the sources. -/
structure Kernel1D where
  kernelSize : ℚ
  W_1D : ℚ → ℚ

/-- `ParticleRefinementByShape::smoothedSpacing` (lines 153-163):
`ratio_ref = measure / (2 * transition_thickness)`; if it is below the
kernel support size, blend the two bounds with weight
`W_1D(ratio_ref) / W_1D(0)`, otherwise return the coarsest bound. -/
def ParticleRefinementByShape.smoothedSpacing (k : Kernel1D)
    (st : ParticleWithLocalRefinement)
    (measure transition_thickness : ℚ) : ℚ :=
  let ratio_ref := measure / (2 * transition_thickness)
  if ratio_ref < k.kernelSize then
    let weight := k.W_1D ratio_ref / k.W_1D 0
    weight * st.finest_spacing_bound + (1 - weight) * st.coarsest_spacing_bound
  else
    st.coarsest_spacing_bound

/-- The adaptation states reachable by a valid configuration
(spacing ratio ≥ 1, system refinement ratio ≥ 1, positive reference
resolution, refinement level ≥ 0) through the constructors and any
sequence of `resetAdaptationRatios` calls with valid ratios. -/
inductive Reachable : SPHAdaptation → Prop
  | base (resolution_ref h_spacing_ratio system_refinement_ratio : ℚ)
      (hres : 0 < resolution_ref) (hh : 1 ≤ h_spacing_ratio)
      (hsys : 1 ≤ system_refinement_ratio) :
      Reachable (SPHAdaptation.construct resolution_ref h_spacing_ratio
        system_refinement_ratio)
  | localRefine (resolution_ref h_spacing_ratio system_refinement_ratio : ℚ)
      (local_refinement_level : ℕ)
      (hres : 0 < resolution_ref) (hh : 1 ≤ h_spacing_ratio)
      (hsys : 1 ≤ system_refinement_ratio) :
      Reachable (ParticleWithLocalRefinement.construct resolution_ref
        h_spacing_ratio system_refinement_ratio
        local_refinement_level).toSPHAdaptation
  | reset (st : SPHAdaptation) (h_spacing_ratio new_system_refinement_ratio : ℚ)
      (hst : Reachable st) (hh : 1 ≤ h_spacing_ratio)
      (hsys : 1 ≤ new_system_refinement_ratio) :
      Reachable (st.resetAdaptationRatios h_spacing_ratio
        new_system_refinement_ratio)

/-- State of class `ParticleSplitAndMerge` (lines 177-186).  Its
`MostRefinedSpacing` takes a D-th root, so this state lives in `ℝ`;
`Dimensions` (the compile-time spatial dimension, 2 or 3) is a parameter. -/
structure ParticleSplitAndMerge where
  h_spacing_ratio : ℝ
  system_refinement_ratio : ℝ
  local_refinement_level : ℕ
  spacing_ref : ℝ
  h_ref : ℝ
  spacing_min : ℝ
  h_ratio_max : ℝ
  finest_spacing_bound : ℝ
  coarsest_spacing_bound : ℝ
  minimum_volume : ℝ
  maximum_volume : ℝ

/-- `ParticleSplitAndMerge::MostRefinedSpacing` (lines 206-211):
`minimum_spacing_particles = 2^level`;
`spacing_ratio = pow(minimum_spacing_particles, 1.0 / Dimensions)`;
returns `coarse_particle_spacing / spacing_ratio`. -/
noncomputable def ParticleSplitAndMerge.MostRefinedSpacing (D : ℕ)
    (coarse_particle_spacing : ℝ) (local_refinement_level : ℕ) : ℝ :=
  let minimum_spacing_particles : ℝ := 2 ^ local_refinement_level
  let spacing_ratio : ℝ := minimum_spacing_particles ^ ((1 : ℝ) / D)
  coarse_particle_spacing / spacing_ratio

/-- The `ParticleSplitAndMerge` constructor (lines 177-186): runs the
`ParticleWithLocalRefinement` constructor (which sets the two bounds from
the halving rule), then overwrites `spacing_min_` with the D-th-root rule,
sets `h_ratio_max_ = spacing_ref_ / spacing_min_`, and derives
`minimum_volume_ = spacing_min_^D`, `maximum_volume_ = spacing_ref_^D`. -/
noncomputable def ParticleSplitAndMerge.construct (D : ℕ)
    (resolution_ref h_spacing_ratio system_refinement_ratio : ℝ)
    (local_refinement_level : ℕ) : ParticleSplitAndMerge :=
  let spacing_ref := resolution_ref / system_refinement_ratio
  let spacing_min := ParticleSplitAndMerge.MostRefinedSpacing D spacing_ref
    local_refinement_level
  { h_spacing_ratio := h_spacing_ratio
    system_refinement_ratio := system_refinement_ratio
    local_refinement_level := local_refinement_level
    spacing_ref := spacing_ref
    h_ref := h_spacing_ratio * spacing_ref
    spacing_min := spacing_min
    h_ratio_max := spacing_ref / spacing_min
    finest_spacing_bound := spacing_ref / 2 ^ local_refinement_level + (Eps : ℝ)
    coarsest_spacing_bound := spacing_ref - (Eps : ℝ)
    minimum_volume := spacing_min ^ D
    maximum_volume := spacing_ref ^ D }

/-- `ParticleSplitAndMerge::resetAdaptationRatios` (lines 198-204): runs the
base-class reset — inside which the virtual `MostRefinedSpacing` call
dispatches to the D-th-root override (modelled from the spec, which states
the split-merge finest spacing is recomputed with the dimension-aware rule
whenever the adaptation resets; the header declaring the method virtual is
not among the sources) — then recomputes the two volumes. -/
noncomputable def ParticleSplitAndMerge.resetAdaptationRatios (D : ℕ)
    (st : ParticleSplitAndMerge)
    (h_spacing_ratio new_system_refinement_ratio : ℝ) :
    ParticleSplitAndMerge :=
  let spacing_ref := st.spacing_ref * st.system_refinement_ratio /
    new_system_refinement_ratio
  let h_ref := h_spacing_ratio * spacing_ref
  let spacing_min := ParticleSplitAndMerge.MostRefinedSpacing D spacing_ref
    st.local_refinement_level
  { h_spacing_ratio := h_spacing_ratio
    system_refinement_ratio := new_system_refinement_ratio
    local_refinement_level := st.local_refinement_level
    spacing_ref := spacing_ref
    h_ref := h_ref
    spacing_min := spacing_min
    h_ratio_max := h_ref * spacing_ref / spacing_min
    finest_spacing_bound := st.finest_spacing_bound
    coarsest_spacing_bound := st.coarsest_spacing_bound
    minimum_volume := spacing_min ^ D
    maximum_volume := spacing_ref ^ D }

/-- `ParticleSplitAndMerge::isSplitAllowed` (lines 188-191):
`current_volume - 2.0 * minimum_volume_ > -Eps`. -/
def ParticleSplitAndMerge.isSplitAllowed (st : ParticleSplitAndMerge)
    (current_volume : ℝ) : Prop :=
  current_volume - 2 * st.minimum_volume > -(Eps : ℝ)

/-- `ParticleSplitAndMerge::mergeResolutionCheck` (lines 193-196):
`volume - 1.2 * powerN(spacing_min_, Dimensions) < Eps` (note: recomputes
the minimum volume from `spacing_min_` instead of reading `minimum_volume_`). -/
def ParticleSplitAndMerge.mergeResolutionCheck (D : ℕ)
    (st : ParticleSplitAndMerge) (volume : ℝ) : Prop :=
  volume - 1.2 * st.spacing_min ^ D < (Eps : ℝ)

/-- `ParticleSplitAndMerge::getCellLinkedListTotalLevel` (lines 213-216):
`1 + (int)floor(log2(spacing_ref_ / spacing_min_))`. -/
noncomputable def ParticleSplitAndMerge.getCellLinkedListTotalLevel
    (st : ParticleSplitAndMerge) : ℤ :=
  1 + ⌊Real.logb 2 (st.spacing_ref / st.spacing_min)⌋

/-- The split-merge adaptation states reachable by a valid configuration
through the constructor and any sequence of `resetAdaptationRatios` calls. -/
inductive PSMReachable (D : ℕ) : ParticleSplitAndMerge → Prop
  | construct (resolution_ref h_spacing_ratio system_refinement_ratio : ℝ)
      (local_refinement_level : ℕ)
      (hres : 0 < resolution_ref) (hh : 1 ≤ h_spacing_ratio)
      (hsys : 1 ≤ system_refinement_ratio) :
      PSMReachable D (ParticleSplitAndMerge.construct D resolution_ref
        h_spacing_ratio system_refinement_ratio local_refinement_level)
  | reset (st : ParticleSplitAndMerge)
      (h_spacing_ratio new_system_refinement_ratio : ℝ)
      (hst : PSMReachable D st) (hh : 1 ≤ h_spacing_ratio)
      (hsys : 1 ≤ new_system_refinement_ratio) :
      PSMReachable D (st.resetAdaptationRatios D h_spacing_ratio
        new_system_refinement_ratio)

/-- C-style truncation toward zero of a real value, the meaning of the
`(int)` cast applied to `log10(...)` in `createLevelSet`. -/
noncomputable def truncTowardZero (x : ℝ) : ℤ :=
  if 0 ≤ x then ⌊x⌋ else ⌈x⌉

/-- The mesh-level estimate of `SPHAdaptation::createLevelSet` (line 100):
`total_levels = (int)log10(MinimumDimension(shape.getBounds()) / ReferenceSpacing()) + 2`.
No validation of the result is performed in the source: construction
proceeds with whatever count this returns. -/
noncomputable def SPHAdaptation.createLevelSetTotalLevels
    (minimum_dimension reference_spacing : ℝ) : ℤ :=
  truncTowardZero (Real.logb 10 (minimum_dimension / reference_spacing)) + 2

/-- A concrete kernel profile used to instantiate the abstract kernel in
witnesses: support size 2 with a linear hat profile. -/
def sampleKernel : Kernel1D :=
  { kernelSize := 2
    W_1D := fun q => if q < 2 then 2 - q else 0 }

theorem Eps_pos : 0 < Eps := by norm_num [Eps]

theorem smoothedSpacing_zero (k : Kernel1D) (st : ParticleWithLocalRefinement)
    (t : ℚ) (hW : k.W_1D 0 ≠ 0) (hks : 0 < k.kernelSize) :
    ParticleRefinementByShape.smoothedSpacing k st 0 t =
      st.finest_spacing_bound := by
  simp [ParticleRefinementByShape.smoothedSpacing, hks, div_self hW]

theorem intFloor_natCast_div (L D : ℕ) : ⌊(L : ℝ) / (D : ℝ)⌋ = (L / D : ℕ) := by
  rw [← Int.natCast_floor_eq_floor (by positivity), Nat.floor_div_nat,
    Nat.floor_natCast]

/-- Invariants carried by every reachable adaptation state: positive
reference spacing, a system ratio ≥ 1, `spacing_min = spacing_ref / 2^level`,
and `h_ratio_max` given either by the constructor formula
(`spacing_ref / spacing_min`) or by the reset formula
(`h_ref * spacing_ref / spacing_min`). -/
theorem Reachable.invariant {st : SPHAdaptation} (h : Reachable st) :
    0 < st.spacing_ref ∧ 1 ≤ st.system_refinement_ratio ∧
      st.spacing_min = st.spacing_ref / 2 ^ st.local_refinement_level ∧
      (st.h_ratio_max = st.spacing_ref / st.spacing_min ∨
        st.h_ratio_max = st.h_ref * st.spacing_ref / st.spacing_min) := by
  induction h with
  | base res hr sys hres hh hsys =>
    have hsys0 : 0 < sys := lt_of_lt_of_le one_pos hsys
    have href : (0:ℚ) < res / sys := div_pos hres hsys0
    refine ⟨href, hsys, by simp [SPHAdaptation.construct,
      SPHAdaptation.MostRefinedSpacing, powerN], Or.inl ?_⟩
    simp [SPHAdaptation.construct, SPHAdaptation.MostRefinedSpacing, powerN]
    field_simp
  | localRefine res hr sys L hres hh hsys =>
    have hsys0 : 0 < sys := lt_of_lt_of_le one_pos hsys
    have href : (0:ℚ) < res / sys := div_pos hres hsys0
    refine ⟨href, hsys, by simp [ParticleWithLocalRefinement.construct,
      SPHAdaptation.construct, SPHAdaptation.MostRefinedSpacing, powerN],
      Or.inl ?_⟩
    have h2L : (0:ℚ) < 2 ^ L := by positivity
    simp only [ParticleWithLocalRefinement.construct, SPHAdaptation.construct,
      SPHAdaptation.MostRefinedSpacing, powerN]
    rw [div_div_eq_mul_div, eq_div_iff (by positivity)]
    field_simp
    ring
  | reset st hr ns hst hh hsys ih =>
    obtain ⟨href, hsysold, hmin, _⟩ := ih
    have hns0 : 0 < ns := lt_of_lt_of_le one_pos hsys
    have hsys0 : 0 < st.system_refinement_ratio := lt_of_lt_of_le one_pos hsysold
    have href2 : 0 < st.spacing_ref * st.system_refinement_ratio / ns := by
      positivity
    exact ⟨href2, hsys, by
      simp [SPHAdaptation.resetAdaptationRatios,
        SPHAdaptation.MostRefinedSpacing, powerN], Or.inr (by
      simp [SPHAdaptation.resetAdaptationRatios,
        SPHAdaptation.MostRefinedSpacing, powerN])⟩

/-- C1 (counterexample): constructing `ParticleWithLocalRefinement` with the
valid configuration (resolution 1, spacing ratio 2, system ratio 1, level 1)
and then performing one `resetAdaptationRatios(2, 1)` yields a reachable
state whose `h_ratio_max` is `4` while `spacing_ref / spacing_min` is `2`:
the claimed invariant `h_ratio_max = reference_spacing / finest_spacing`
fails after a reset. -/
theorem C1_invariant_counterexample :
    Reachable ((ParticleWithLocalRefinement.construct 1 2 1
        1).toSPHAdaptation.resetAdaptationRatios 2 1) ∧
      ((ParticleWithLocalRefinement.construct 1 2 1
        1).toSPHAdaptation.resetAdaptationRatios 2 1).h_ratio_max = 4 ∧
      ((ParticleWithLocalRefinement.construct 1 2 1
          1).toSPHAdaptation.resetAdaptationRatios 2 1).spacing_ref /
        ((ParticleWithLocalRefinement.construct 1 2 1
          1).toSPHAdaptation.resetAdaptationRatios 2 1).spacing_min = 2 ∧
      ((ParticleWithLocalRefinement.construct 1 2 1
        1).toSPHAdaptation.resetAdaptationRatios 2 1).h_ratio_max ≠
        ((ParticleWithLocalRefinement.construct 1 2 1
          1).toSPHAdaptation.resetAdaptationRatios 2 1).spacing_ref /
        ((ParticleWithLocalRefinement.construct 1 2 1
          1).toSPHAdaptation.resetAdaptationRatios 2 1).spacing_min := by
  refine ⟨Reachable.reset _ 2 1
    (Reachable.localRefine 1 2 1 1 (by norm_num) (by norm_num) le_rfl)
    (by norm_num) le_rfl, ?_, ?_, ?_⟩ <;>
    norm_num [ParticleWithLocalRefinement.construct, SPHAdaptation.construct,
      SPHAdaptation.resetAdaptationRatios, SPHAdaptation.MostRefinedSpacing,
      powerN]

/-- C1 (amended): for every valid configuration and after every sequence of
construction and `resetAdaptationRatios` operations,
`finest_spacing ≤ reference_spacing`; the maximum smoothing ratio equals
`reference_spacing / finest_spacing` after construction, but after a reset
it is set to `h_ref * reference_spacing / finest_spacing` instead, which
coincides with the constructor formula only when `h_ref = 1`. -/
theorem C1_amended_invariant {st : SPHAdaptation} (h : Reachable st) :
    st.spacing_min ≤ st.spacing_ref ∧
      (st.h_ratio_max = st.spacing_ref / st.spacing_min ∨
        st.h_ratio_max = st.h_ref * st.spacing_ref / st.spacing_min) := by
  obtain ⟨href, _, hmin, hmax⟩ := h.invariant
  refine ⟨?_, hmax⟩
  rw [hmin]
  exact div_le_self href.le (one_le_pow₀ (by norm_num))

/-- Witness for C1 (amended) at the configuration (1, 1, 1). -/
theorem C1_amended_invariant_witness :
    (SPHAdaptation.construct 1 1 1).spacing_min ≤
        (SPHAdaptation.construct 1 1 1).spacing_ref ∧
      ((SPHAdaptation.construct 1 1 1).h_ratio_max =
          (SPHAdaptation.construct 1 1 1).spacing_ref /
            (SPHAdaptation.construct 1 1 1).spacing_min ∨
        (SPHAdaptation.construct 1 1 1).h_ratio_max =
          (SPHAdaptation.construct 1 1 1).h_ref *
            (SPHAdaptation.construct 1 1 1).spacing_ref /
            (SPHAdaptation.construct 1 1 1).spacing_min) :=
  C1_amended_invariant (Reachable.base 1 1 1 (by norm_num) le_rfl le_rfl)

/-- C2 (counterexample): for a shape whose minimum bounding extent is one
hundredth of the reference spacing — an invalid configuration — the level
estimate of `createLevelSet` is `0`: the (total, error-free) construction
silently proceeds with a zero-level hierarchy instead of failing fast. -/
theorem C2_counterexample_silent_zero_levels :
    SPHAdaptation.createLevelSetTotalLevels (1 / 100) 1 = 0 := by
  have h100 : Real.logb 10 ((1 : ℝ) / 100 / 1) = -2 := by
    have h : ((1 : ℝ) / 100 / 1) = (10 : ℝ) ^ ((-2 : ℤ) : ℝ) := by
      rw [Real.rpow_intCast]; norm_num
    rw [h, Real.logb_rpow (by norm_num) (by norm_num)]; norm_num
  unfold SPHAdaptation.createLevelSetTotalLevels truncTowardZero
  rw [h100, if_neg (by norm_num)]
  rw [show ((-2 : ℝ)) = ((-2 : ℤ) : ℝ) by norm_num, Int.ceil_intCast]
  norm_num

/-- C2 (amended): `createLevelSet` performs no validation at all: it is a
total function, and for every shape whose minimum extent is at most one
hundredth of the reference spacing the estimated level count
`(int)log10(extent / spacing) + 2` is non-positive — a degenerate zero- or
negative-level hierarchy is produced silently, with no configuration-error
signal. -/
theorem C2_amended_no_validation (minimum_dimension reference_spacing : ℝ)
    (hs : 0 < reference_spacing) (hd : 0 < minimum_dimension)
    (hsmall : minimum_dimension ≤ reference_spacing / 100) :
    SPHAdaptation.createLevelSetTotalLevels minimum_dimension
      reference_spacing ≤ 0 := by
  have hratio_pos : 0 < minimum_dimension / reference_spacing := div_pos hd hs
  have hratio_le : minimum_dimension / reference_spacing ≤ 1 / 100 := by
    rw [div_le_div_iff₀ hs (by norm_num)]
    nlinarith
  have h100 : Real.logb 10 ((1 : ℝ) / 100) = -2 := by
    have h : ((1 : ℝ) / 100) = (10 : ℝ) ^ ((-2 : ℤ) : ℝ) := by
      rw [Real.rpow_intCast]; norm_num
    rw [h, Real.logb_rpow (by norm_num) (by norm_num)]; norm_num
  have hlog : Real.logb 10 (minimum_dimension / reference_spacing) ≤ -2 := by
    calc Real.logb 10 (minimum_dimension / reference_spacing)
        ≤ Real.logb 10 ((1 : ℝ) / 100) :=
          Real.logb_le_logb_of_le (by norm_num) hratio_pos hratio_le
      _ = -2 := h100
  unfold SPHAdaptation.createLevelSetTotalLevels truncTowardZero
  rw [if_neg (by linarith)]
  have hceil : ⌈Real.logb 10 (minimum_dimension / reference_spacing)⌉ ≤ -2 :=
    Int.ceil_le.mpr (by push_cast; linarith)
  omega

/-- Witness for C2 (amended) at extent 1/1000, spacing 1. -/
theorem C2_amended_no_validation_witness :
    SPHAdaptation.createLevelSetTotalLevels (1 / 1000) 1 ≤ 0 :=
  C2_amended_no_validation (1 / 1000) 1 (by norm_num) (by norm_num)
    (by norm_num)

/-- C4: for every split-merge state and volume `v`, `isSplitAllowed v` holds
iff `v - 2 * minimum_volume > -Eps`; in particular it holds at
`2 * minimum_volume` and fails at `2 * minimum_volume - 10 * Eps`. -/
theorem C4_isSplitAllowed_spec (st : ParticleSplitAndMerge) (v : ℝ) :
    (st.isSplitAllowed v ↔ v - 2 * st.minimum_volume > -(Eps : ℝ)) ∧
      st.isSplitAllowed (2 * st.minimum_volume) ∧
      ¬st.isSplitAllowed (2 * st.minimum_volume - 10 * (Eps : ℝ)) := by
  have he : (0 : ℝ) < (Eps : ℝ) := by
    have := Eps_pos
    exact_mod_cast this
  refine ⟨Iff.rfl, ?_, ?_⟩ <;>
    simp only [ParticleSplitAndMerge.isSplitAllowed, not_lt, gt_iff_lt] <;>
    linarith

/-- C6: `smoothedSpacing` is total; with `ratio_ref` inside the kernel
support it returns the kernel-weighted blend of the two bounds, outside it
returns the coarsest bound, and at `measure = 0` it returns the finest
bound. -/
theorem C6_smoothedSpacing_total (k : Kernel1D)
    (st : ParticleWithLocalRefinement) (measure transition_thickness : ℚ)
    (hW : k.W_1D 0 ≠ 0) (hks : 0 < k.kernelSize)
    (hm : 0 ≤ measure) (ht : 0 < transition_thickness) :
    (measure / (2 * transition_thickness) < k.kernelSize →
      ParticleRefinementByShape.smoothedSpacing k st measure
          transition_thickness =
        k.W_1D (measure / (2 * transition_thickness)) / k.W_1D 0 *
            st.finest_spacing_bound +
          (1 - k.W_1D (measure / (2 * transition_thickness)) / k.W_1D 0) *
            st.coarsest_spacing_bound) ∧
      (k.kernelSize ≤ measure / (2 * transition_thickness) →
        ParticleRefinementByShape.smoothedSpacing k st measure
          transition_thickness = st.coarsest_spacing_bound) ∧
      ParticleRefinementByShape.smoothedSpacing k st 0 transition_thickness =
        st.finest_spacing_bound := by
  refine ⟨fun hlt => ?_, fun hge => ?_,
    smoothedSpacing_zero k st transition_thickness hW hks⟩
  · simp [ParticleRefinementByShape.smoothedSpacing, if_pos hlt]
  · simp [ParticleRefinementByShape.smoothedSpacing, if_neg (not_lt.mpr hge)]

/-- Witness for C6 with the sample kernel at measure 1, thickness 1. -/
theorem C6_smoothedSpacing_total_witness :
    ((1 : ℚ) / (2 * 1) < sampleKernel.kernelSize →
      ParticleRefinementByShape.smoothedSpacing sampleKernel
          (ParticleWithLocalRefinement.construct 1 1 1 1) 1 1 =
        sampleKernel.W_1D ((1 : ℚ) / (2 * 1)) / sampleKernel.W_1D 0 *
            (ParticleWithLocalRefinement.construct 1 1 1
              1).finest_spacing_bound +
          (1 - sampleKernel.W_1D ((1 : ℚ) / (2 * 1)) /
              sampleKernel.W_1D 0) *
            (ParticleWithLocalRefinement.construct 1 1 1
              1).coarsest_spacing_bound) ∧
      (sampleKernel.kernelSize ≤ (1 : ℚ) / (2 * 1) →
        ParticleRefinementByShape.smoothedSpacing sampleKernel
          (ParticleWithLocalRefinement.construct 1 1 1 1) 1 1 =
          (ParticleWithLocalRefinement.construct 1 1 1
            1).coarsest_spacing_bound) ∧
      ParticleRefinementByShape.smoothedSpacing sampleKernel
          (ParticleWithLocalRefinement.construct 1 1 1 1) 0 1 =
        (ParticleWithLocalRefinement.construct 1 1 1
          1).finest_spacing_bound :=
  C6_smoothedSpacing_total sampleKernel
    (ParticleWithLocalRefinement.construct 1 1 1 1) 1 1
    (by norm_num [sampleKernel]) (by norm_num [sampleKernel]) (by norm_num)
    (by norm_num)

/-- C7: `resetAdaptationRatios` multiplies the stored reference spacing by
`old_system_ratio / new_system_ratio`; it is idempotent under repeated
identical calls, and a reset followed by a reset with the original ratios
restores the reference spacing exactly. -/
theorem C7_reset_rescales_idempotent (st : SPHAdaptation)
    (h_new sys_new : ℚ) (hsys : st.system_refinement_ratio ≠ 0)
    (hns : sys_new ≠ 0) :
    (st.resetAdaptationRatios h_new sys_new).spacing_ref =
        st.spacing_ref * st.system_refinement_ratio / sys_new ∧
      (st.resetAdaptationRatios h_new sys_new).resetAdaptationRatios h_new
          sys_new =
        st.resetAdaptationRatios h_new sys_new ∧
      ((st.resetAdaptationRatios h_new sys_new).resetAdaptationRatios
          st.h_spacing_ratio st.system_refinement_ratio).spacing_ref =
        st.spacing_ref := by
  refine ⟨rfl, ?_, ?_⟩
  · simp only [SPHAdaptation.resetAdaptationRatios,
      SPHAdaptation.MostRefinedSpacing]
    rw [mul_div_cancel_right₀ _ hns]
  · simp only [SPHAdaptation.resetAdaptationRatios]
    field_simp

/-- Witness for C7 at the state constructed from (1, 1, 2) with a reset to
ratios (3, 5). -/
theorem C7_reset_rescales_idempotent_witness :
    ((SPHAdaptation.construct 1 1 2).resetAdaptationRatios 3 5).spacing_ref =
        (SPHAdaptation.construct 1 1 2).spacing_ref *
            (SPHAdaptation.construct 1 1 2).system_refinement_ratio / 5 ∧
      (((SPHAdaptation.construct 1 1 2).resetAdaptationRatios 3
            5).resetAdaptationRatios 3 5 =
        (SPHAdaptation.construct 1 1 2).resetAdaptationRatios 3 5) ∧
      (((SPHAdaptation.construct 1 1 2).resetAdaptationRatios 3
            5).resetAdaptationRatios
          (SPHAdaptation.construct 1 1 2).h_spacing_ratio
          (SPHAdaptation.construct 1 1 2).system_refinement_ratio).spacing_ref =
        (SPHAdaptation.construct 1 1 2).spacing_ref :=
  C7_reset_rescales_idempotent (SPHAdaptation.construct 1 1 2) 3 5
    (by norm_num [SPHAdaptation.construct]) (by norm_num)

/-- C10: with refinement level 0 the two blending bounds are inverted —
`finest_spacing_bound = spacing_ref + Eps` exceeds
`coarsest_spacing_bound = spacing_ref - Eps` — so `smoothedSpacing(0, t)`
exceeds the coarsest bound; in general the ordering
`finest_spacing_bound < coarsest_spacing_bound` holds iff `L ≥ 1` and
`spacing_ref * (1 - 2^(-L)) > 2 * Eps`. -/
theorem C10_degenerate_bounds_L0 (k : Kernel1D) (res hr sys t : ℚ) (L : ℕ)
    (hW : k.W_1D 0 ≠ 0) (hks : 0 < k.kernelSize)
    (hres : 0 < res) (hh : 1 ≤ hr) (hsys : 1 ≤ sys) (ht : 0 < t) :
    (ParticleWithLocalRefinement.construct res hr sys 0).finest_spacing_bound =
        (ParticleWithLocalRefinement.construct res hr sys 0).spacing_ref +
          Eps ∧
      (ParticleWithLocalRefinement.construct res hr sys
            0).coarsest_spacing_bound =
        (ParticleWithLocalRefinement.construct res hr sys 0).spacing_ref -
          Eps ∧
      (ParticleWithLocalRefinement.construct res hr sys
            0).coarsest_spacing_bound <
        (ParticleWithLocalRefinement.construct res hr sys
          0).finest_spacing_bound ∧
      (ParticleWithLocalRefinement.construct res hr sys
            0).coarsest_spacing_bound <
        ParticleRefinementByShape.smoothedSpacing k
          (ParticleWithLocalRefinement.construct res hr sys 0) 0 t ∧
      ((ParticleWithLocalRefinement.construct res hr sys
            L).finest_spacing_bound <
          (ParticleWithLocalRefinement.construct res hr sys
            L).coarsest_spacing_bound ↔
        1 ≤ L ∧ 2 * Eps <
          (ParticleWithLocalRefinement.construct res hr sys L).spacing_ref *
            (1 - 1 / 2 ^ L)) := by
  have he := Eps_pos
  have hfin : (ParticleWithLocalRefinement.construct res hr sys
      0).finest_spacing_bound =
      (ParticleWithLocalRefinement.construct res hr sys 0).spacing_ref +
        Eps := by
    simp [ParticleWithLocalRefinement.construct, SPHAdaptation.construct,
      SPHAdaptation.MostRefinedSpacing, powerN]
  have hcoarse : (ParticleWithLocalRefinement.construct res hr sys
      0).coarsest_spacing_bound =
      (ParticleWithLocalRefinement.construct res hr sys 0).spacing_ref -
        Eps := rfl
  refine ⟨hfin, hcoarse, ?_, ?_, ?_⟩
  · rw [hfin, hcoarse]; linarith
  · rw [smoothedSpacing_zero k _ t hW hks, hfin, hcoarse]; linarith
  · simp only [ParticleWithLocalRefinement.construct, SPHAdaptation.construct,
      SPHAdaptation.MostRefinedSpacing, powerN]
    constructor
    · intro hlt
      constructor
      · by_contra hL
        have hL0 : L = 0 := by omega
        subst hL0
        simp only [pow_zero, div_one] at hlt
        linarith
      · have : res / sys * (1 - 1 / 2 ^ L) =
            res / sys - res / sys / 2 ^ L := by ring
        rw [this]
        linarith
    · rintro ⟨hL, hineq⟩
      have : res / sys * (1 - 1 / 2 ^ L) =
          res / sys - res / sys / 2 ^ L := by ring
      rw [this] at hineq
      linarith

/-- Witness for C10 with the sample kernel at configuration (1, 1, 1),
thickness 1, general level instantiated at 1. -/
theorem C10_degenerate_bounds_L0_witness :
    (ParticleWithLocalRefinement.construct 1 1 1 0).finest_spacing_bound =
        (ParticleWithLocalRefinement.construct 1 1 1 0).spacing_ref + Eps ∧
      (ParticleWithLocalRefinement.construct 1 1 1
            0).coarsest_spacing_bound =
        (ParticleWithLocalRefinement.construct 1 1 1 0).spacing_ref - Eps ∧
      (ParticleWithLocalRefinement.construct 1 1 1
            0).coarsest_spacing_bound <
        (ParticleWithLocalRefinement.construct 1 1 1 0).finest_spacing_bound ∧
      (ParticleWithLocalRefinement.construct 1 1 1
            0).coarsest_spacing_bound <
        ParticleRefinementByShape.smoothedSpacing sampleKernel
          (ParticleWithLocalRefinement.construct 1 1 1 0) 0 1 ∧
      ((ParticleWithLocalRefinement.construct 1 1 1
            1).finest_spacing_bound <
          (ParticleWithLocalRefinement.construct 1 1 1
            1).coarsest_spacing_bound ↔
        1 ≤ 1 ∧ 2 * Eps <
          (ParticleWithLocalRefinement.construct 1 1 1 1).spacing_ref *
            (1 - 1 / 2 ^ 1)) :=
  C10_degenerate_bounds_L0 sampleKernel 1 1 1 1 1
    (by norm_num [sampleKernel]) (by norm_num [sampleKernel])
    (by norm_num) le_rfl le_rfl (by norm_num)

/-- C3: for `ParticleSplitAndMerge`, after construction and after every
`resetAdaptationRatios` call, `spacing_min = spacing_ref / (2^L)^(1/D)`,
`minimum_volume = spacing_min^D`, and `maximum_volume = spacing_ref^D`. -/
theorem C3_split_merge_scaling (D : ℕ) (hD : D = 2 ∨ D = 3)
    {st : ParticleSplitAndMerge} (h : PSMReachable D st) :
    st.spacing_min = st.spacing_ref /
        ((2 : ℝ) ^ st.local_refinement_level) ^ ((1 : ℝ) / D) ∧
      st.minimum_volume = st.spacing_min ^ D ∧
      st.maximum_volume = st.spacing_ref ^ D := by
  induction h with
  | construct res hr sys L hres hh hsys => exact ⟨rfl, rfl, rfl⟩
  | reset st hr ns hst hh hsys ih => exact ⟨rfl, rfl, rfl⟩

/-- Witness for C3 at the 2-D configuration (1, 1, 1) with level 0. -/
theorem C3_split_merge_scaling_witness :
    (ParticleSplitAndMerge.construct 2 1 1 1 0).spacing_min =
        (ParticleSplitAndMerge.construct 2 1 1 1 0).spacing_ref /
          ((2 : ℝ) ^
              (ParticleSplitAndMerge.construct 2 1 1 1
                0).local_refinement_level) ^ ((1 : ℝ) / 2) ∧
      (ParticleSplitAndMerge.construct 2 1 1 1 0).minimum_volume =
        (ParticleSplitAndMerge.construct 2 1 1 1 0).spacing_min ^ 2 ∧
      (ParticleSplitAndMerge.construct 2 1 1 1 0).maximum_volume =
        (ParticleSplitAndMerge.construct 2 1 1 1 0).spacing_ref ^ 2 :=
  C3_split_merge_scaling 2 (Or.inl rfl)
    (PSMReachable.construct 1 1 1 0 (by norm_num) le_rfl le_rfl)

/-- C5: for every volume `v`, `mergeResolutionCheck v` holds iff
`v - 1.2 * minimum_volume < Eps` (given the derived-volume invariant
`minimum_volume = spacing_min^D` and a minimum volume well above the
tolerance); in particular it holds at `minimum_volume` and fails at
`1.3 * minimum_volume`. -/
theorem C5_mergeResolutionCheck_spec (D : ℕ) (st : ParticleSplitAndMerge)
    (v : ℝ) (hmin : st.minimum_volume = st.spacing_min ^ D)
    (hvol : 10 * (Eps : ℝ) ≤ st.minimum_volume) :
    (st.mergeResolutionCheck D v ↔
        v - 1.2 * st.minimum_volume < (Eps : ℝ)) ∧
      st.mergeResolutionCheck D st.minimum_volume ∧
      ¬st.mergeResolutionCheck D (1.3 * st.minimum_volume) := by
  have he : (0 : ℝ) < (Eps : ℝ) := by exact_mod_cast Eps_pos
  unfold ParticleSplitAndMerge.mergeResolutionCheck
  rw [← hmin]
  exact ⟨Iff.rfl, by linarith, not_lt.mpr (by linarith)⟩

/-- Witness for C5 at the 2-D configuration (1, 1, 1) with level 0 and
volume 1. -/
theorem C5_mergeResolutionCheck_spec_witness :
    ((ParticleSplitAndMerge.construct 2 1 1 1 0).mergeResolutionCheck 2 1 ↔
        1 - 1.2 * (ParticleSplitAndMerge.construct 2 1 1 1 0).minimum_volume <
          (Eps : ℝ)) ∧
      (ParticleSplitAndMerge.construct 2 1 1 1 0).mergeResolutionCheck 2
        (ParticleSplitAndMerge.construct 2 1 1 1 0).minimum_volume ∧
      ¬(ParticleSplitAndMerge.construct 2 1 1 1 0).mergeResolutionCheck 2
          (1.3 * (ParticleSplitAndMerge.construct 2 1 1 1 0).minimum_volume) :=
  C5_mergeResolutionCheck_spec 2 (ParticleSplitAndMerge.construct 2 1 1 1 0)
    1 rfl (by
      have h1 : (ParticleSplitAndMerge.construct 2 1 1 1 0).minimum_volume =
          1 := by
        simp [ParticleSplitAndMerge.construct,
          ParticleSplitAndMerge.MostRefinedSpacing, Real.one_rpow]
      rw [h1]
      norm_num [Eps])

/-- C9: no volume satisfies `isSplitAllowed` and `mergeResolutionCheck`
simultaneously, provided the minimum volume is at least `2.5 * Eps`. -/
theorem C9_split_merge_exclusive (D : ℕ) (st : ParticleSplitAndMerge)
    (v : ℝ) (hmin : st.minimum_volume = st.spacing_min ^ D)
    (hvol : 2.5 * (Eps : ℝ) ≤ st.minimum_volume) :
    ¬(st.isSplitAllowed v ∧ st.mergeResolutionCheck D v) := by
  have he : (0 : ℝ) < (Eps : ℝ) := by exact_mod_cast Eps_pos
  rintro ⟨hs, hm⟩
  unfold ParticleSplitAndMerge.isSplitAllowed at hs
  unfold ParticleSplitAndMerge.mergeResolutionCheck at hm
  rw [← hmin] at hm
  linarith

/-- Witness for C9 at the 2-D configuration (1, 1, 1) with level 0 and
volume 3/2. -/
theorem C9_split_merge_exclusive_witness :
    ¬((ParticleSplitAndMerge.construct 2 1 1 1 0).isSplitAllowed (3 / 2) ∧
        (ParticleSplitAndMerge.construct 2 1 1 1 0).mergeResolutionCheck 2
          (3 / 2)) :=
  C9_split_merge_exclusive 2 (ParticleSplitAndMerge.construct 2 1 1 1 0)
    (3 / 2) rfl (by
      have h1 : (ParticleSplitAndMerge.construct 2 1 1 1 0).minimum_volume =
          1 := by
        simp [ParticleSplitAndMerge.construct,
          ParticleSplitAndMerge.MostRefinedSpacing, Real.one_rpow]
      rw [h1]
      norm_num [Eps])

/-- C8: `ParticleWithLocalRefinement` reports `L` cell-linked-list levels
and `L + 1` level-set levels, while `ParticleSplitAndMerge` reports
`1 + floor(log2(spacing_ref / spacing_min))` cell-linked-list levels, which
for a freshly constructed state equals `1 + L / D` (integer division) —
not the nominal `L`. -/
theorem C8_total_levels (res hr sys : ℚ) (L D : ℕ) (hres : 0 < res)
    (hh : 1 ≤ hr) (hsys : 1 ≤ sys) (hD : D = 2 ∨ D = 3) :
    (ParticleWithLocalRefinement.construct res hr sys
        L).getCellLinkedListTotalLevel = L ∧
      (ParticleWithLocalRefinement.construct res hr sys
          L).getLevelSetTotalLevel = L + 1 ∧
      (ParticleSplitAndMerge.construct D (res : ℝ) (hr : ℝ) (sys : ℝ)
            L).getCellLinkedListTotalLevel =
        1 + ⌊Real.logb 2
            ((ParticleSplitAndMerge.construct D (res : ℝ) (hr : ℝ) (sys : ℝ)
                  L).spacing_ref /
              (ParticleSplitAndMerge.construct D (res : ℝ) (hr : ℝ) (sys : ℝ)
                  L).spacing_min)⌋ ∧
      (ParticleSplitAndMerge.construct D (res : ℝ) (hr : ℝ) (sys : ℝ)
            L).getCellLinkedListTotalLevel = 1 + (L / D : ℕ) := by
  have hres' : (0 : ℝ) < (res : ℝ) := by exact_mod_cast hres
  have hsys' : (0 : ℝ) < (sys : ℝ) := by
    have h0 : (0 : ℚ) < sys := lt_of_lt_of_le one_pos hsys
    exact_mod_cast h0
  have hrefpos : (0 : ℝ) < (res : ℝ) / (sys : ℝ) := div_pos hres' hsys'
  refine ⟨rfl, rfl, rfl, ?_⟩
  unfold ParticleSplitAndMerge.getCellLinkedListTotalLevel
  have hratio : (ParticleSplitAndMerge.construct D (res : ℝ) (hr : ℝ)
        (sys : ℝ) L).spacing_ref /
      (ParticleSplitAndMerge.construct D (res : ℝ) (hr : ℝ) (sys : ℝ)
        L).spacing_min = ((2 : ℝ) ^ L) ^ ((1 : ℝ) / D) := by
    show (res : ℝ) / (sys : ℝ) /
        ((res : ℝ) / (sys : ℝ) / ((2 : ℝ) ^ L) ^ ((1 : ℝ) / D)) = _
    rw [div_div_eq_mul_div, mul_comm, mul_div_assoc, div_self hrefpos.ne',
      mul_one]
  rw [hratio]
  have h2 : ((2 : ℝ) ^ L) ^ ((1 : ℝ) / D) =
      (2 : ℝ) ^ ((L : ℝ) * ((1 : ℝ) / D)) := by
    rw [← Real.rpow_natCast 2 L, ← Real.rpow_mul (by norm_num)]
  rw [h2, Real.logb_rpow (by norm_num) (by norm_num)]
  have h3 : (L : ℝ) * ((1 : ℝ) / D) = (L : ℝ) / (D : ℝ) := by ring
  rw [h3, intFloor_natCast_div]

/-- Witness for C8 at the 2-D configuration (1, 1, 1) with level 3:
the split-merge hierarchy then has `1 + 3 / 2 = 2` levels. -/
theorem C8_total_levels_witness :
    (ParticleWithLocalRefinement.construct 1 1 1
        3).getCellLinkedListTotalLevel = 3 ∧
      (ParticleWithLocalRefinement.construct 1 1 1
          3).getLevelSetTotalLevel = 3 + 1 ∧
      (ParticleSplitAndMerge.construct 2 ((1 : ℚ) : ℝ) ((1 : ℚ) : ℝ)
            ((1 : ℚ) : ℝ) 3).getCellLinkedListTotalLevel =
        1 + ⌊Real.logb 2
            ((ParticleSplitAndMerge.construct 2 ((1 : ℚ) : ℝ) ((1 : ℚ) : ℝ)
                  ((1 : ℚ) : ℝ) 3).spacing_ref /
              (ParticleSplitAndMerge.construct 2 ((1 : ℚ) : ℝ) ((1 : ℚ) : ℝ)
                  ((1 : ℚ) : ℝ) 3).spacing_min)⌋ ∧
      (ParticleSplitAndMerge.construct 2 ((1 : ℚ) : ℝ) ((1 : ℚ) : ℝ)
            ((1 : ℚ) : ℝ) 3).getCellLinkedListTotalLevel = 1 + (3 / 2 : ℕ) :=
  C8_total_levels 1 1 1 3 2 (by norm_num) le_rfl le_rfl (Or.inl rfl)

end IceSPH
